import Mathlib

/-!
Shallow embedding of the network snapshot worker (src/workers.py, class RunEvent).

The Python dict is modeled as an insertion-ordered association list.  The
behaviour of the external GenericHandler for one device (whether the session
opens, the reported prompt, the result of each sendCommand call) is a
`HandlerSpec`; exceptions become explicit `TaskErr` values.  Progress
increments are modeled exactly over the rationals.  The order in which the
concurrently running per-device tasks perform their initial write into the
shared output_data dict is an explicit parameter (any permutation of the
submitted device list), since the thread pool constrains completion order in
no way.
-/

/-- Whitespace characters recognised by the Python str.strip method. -/
def isPyWhitespace (c : Char) : Bool :=
  c = ' ' || c = '\t' || c = '\n' || c = '\r' || c = '\x0b' || c = '\x0c'

/-- Python str.strip on lists of characters: remove leading and trailing
whitespace. -/
def pyStripList (l : List Char) : List Char :=
  ((l.dropWhile isPyWhitespace).reverse.dropWhile isPyWhitespace).reverse

/-- Python str.strip, as applied to the sendCommand result on line 113 of
workers.py. -/
def pyStrip (s : String) : String :=
  String.mk (pyStripList s.toList)

/-- Assignment d[k] = v on a Python dict modeled as an association list: an
existing key keeps its position and receives the new value, a fresh key is
appended at the end. -/
def dictInsert {α : Type} (m : List (String × α)) (k : String) (v : α) :
    List (String × α) :=
  if m.any (fun p => p.1 == k) then
    m.map (fun p => if p.1 = k then (k, v) else p)
  else m ++ [(k, v)]

/-- Key list of an association list. -/
def keysOf {α : Type} (m : List (String × α)) : List String :=
  m.map Prod.fst

/-- Lookup of a key in an association list (first match). -/
def lookupKey {α : Type} (m : List (String × α)) (k : String) : Option α :=
  match m with
  | [] => none
  | p :: rest => if p.1 = k then some p.2 else lookupKey rest k

/-- The per-device entry of output_data: the prompt recorded after
authentication and the ordered command to output mapping. -/
structure SessionResult where
  prompt : String
  command_output : List (String × String)
deriving DecidableEq, Repr

/-- Behaviour of the external GenericHandler for one device: whether the
constructor (connect + authenticate) succeeds, the prompt it reports, and the
outcome of sendCommand for each command (ok with the raw captured text, or
error). -/
structure HandlerSpec where
  openOk : Bool
  prompt : String
  send : String → Except String String

/-- The exceptions a snapshot task can raise: GenericHandler construction
failure, a sendCommand failure on a given command, or the ZeroDivisionError
raised on line 110 of workers.py when the command list is empty. -/
inductive TaskErr where
  | connErr : TaskErr
  | cmdErr : String → TaskErr
  | divZero : TaskErr
deriving DecidableEq, Repr

/-- Observable outcome of one execution of snapshot_task for one device: the
final content of the output_data entry of that device, the progress
increments it emitted in order, how many times handler.close was invoked, and
the exception the task raised, if any. -/
structure TaskOutcome where
  result : SessionResult
  emitted : List ℚ
  closeCount : ℕ
  err : Option TaskErr
deriving DecidableEq, Repr

/-- The command loop of snapshot_task (lines 111 to 117 of workers.py): for
each command, sendCommand, strip the result, store it, emit one per-command
increment; a sendCommand failure aborts the loop at that command. -/
def runCommands (h : HandlerSpec) (cp : ℚ) :
    List String → List (String × String) → List ℚ →
    List (String × String) × List ℚ × Option TaskErr
  | [], acc, em => (acc, em, none)
  | c :: rest, acc, em =>
    match h.send c with
    | .error _ => (acc, em, some (.cmdErr c))
    | .ok raw => runCommands h cp rest (dictInsert acc c (pyStrip raw)) (em ++ [cp])

/-- snapshot_task (lines 72 to 119 of workers.py) for one device, with D the
length of the device list.  The entry is created empty, 10 percent of the
per-device share is emitted, the handler is constructed (on failure the entry
stays empty and the task raises), the prompt is recorded, 20 percent is
emitted, the per-command share is computed (ZeroDivisionError when the
command list is empty), the command loop runs, and only after a fully
successful loop is handler.close reached on line 119. -/
def snapshot_task (D : ℕ) (commands : List String) (h : HandlerSpec) :
    TaskOutcome :=
  let ap : ℚ := 90 / D
  let em0 : List ℚ := [ap * (1 / 10)]
  if h.openOk then
    let em1 := em0 ++ [ap * (2 / 10)]
    if commands.length = 0 then
      { result := { prompt := h.prompt, command_output := [] },
        emitted := em1, closeCount := 0, err := some .divZero }
    else
      let cp : ℚ := (ap * (7 / 10)) / commands.length
      match runCommands h cp commands [] em1 with
      | (acc, em, none) =>
        { result := { prompt := h.prompt, command_output := acc },
          emitted := em, closeCount := 1, err := none }
      | (acc, em, some e) =>
        { result := { prompt := h.prompt, command_output := acc },
          emitted := em, closeCount := 0, err := some e }
  else
    { result := { prompt := "", command_output := [] },
      emitted := em0, closeCount := 0, err := some .connErr }

/-- Final content of the shared output_data dict after all submitted tasks
have settled, when the tasks performed their initial writes in the given
order (any permutation of the submitted device list). -/
def runTasks (D : ℕ) (commands : List String) (env : String → HandlerSpec)
    (order : List String) : List (String × SessionResult) :=
  order.foldl (fun od d => dictInsert od d (snapshot_task D commands (env d)).result) []

/-- The futures dict of thread_executor (lines 59 to 62 of workers.py),
reduced to the exception of each future: the dict comprehension keeps one
entry per distinct device, holding the last submitted future for it. -/
def futuresErrors (D : ℕ) (commands : List String) (env : String → HandlerSpec)
    (devices : List String) : List (String × Option TaskErr) :=
  devices.foldl (fun fs d => dictInsert fs d (snapshot_task D commands (env d)).err) []

/-- The exceptions logged by thread_executor (lines 67 to 70 of workers.py):
for each future whose exception is set, one log record. -/
def loggedErrors (D : ℕ) (commands : List String) (env : String → HandlerSpec)
    (devices : List String) : List (String × TaskErr) :=
  (futuresErrors D commands env devices).filterMap
    (fun p => match p.2 with | some e => some (p.1, e) | none => none)

/-- Sum of the progress increments one task emits. -/
def emitSum (D : ℕ) (commands : List String) (h : HandlerSpec) : ℚ :=
  ((snapshot_task D commands h).emitted).sum

/-- Total progress emitted over one whole run (lines 32 to 50 and 57 of
workers.py): 9 at pool startup, the increments of every submitted task, and
2 after report generation. -/
def totalProgress (devices commands : List String)
    (env : String → HandlerSpec) : ℚ :=
  9 + (devices.map (fun d => emitSum devices.length commands (env d))).sum + 2

/-- The batch as the caller observes it: the settled output_data, the logged
per-device exceptions, and the total progress emitted. -/
structure BatchOutcome where
  output_data : List (String × SessionResult)
  logged : List (String × TaskErr)
  totalEmitted : ℚ

/-- One whole run of RunEvent.run up to report generation. -/
def runBatch (devices commands : List String) (env : String → HandlerSpec)
    (order : List String) : BatchOutcome :=
  { output_data := runTasks devices.length commands env order
    logged := loggedErrors devices.length commands env devices
    totalEmitted := totalProgress devices commands env }

/-- The separator line written after each command section in Text mode. -/
def sep79 : String :=
  String.mk (List.replicate 79 '-')

/-- Filename of the Text artifact of one device (line 131 of workers.py):
the prompt without its last character, an underscore, the current date, and
the txt extension. -/
def textFileName (p : String) (date : String) : String :=
  p.dropRight 1 ++ "_" ++ date ++ ".txt"

/-- Body of the Text artifact of one device: the loop of file.write calls on
lines 135 to 136 of workers.py, accumulating into the file. -/
def textFileBody (p : String) (outs : List (String × String)) : String :=
  outs.foldl (fun acc co => acc ++ (p ++ co.1 ++ "\n" ++ co.2 ++ "\n" ++ sep79 ++ "\n")) ""

/-- Text mode of generate_report (lines 127 to 136 of workers.py): one
written artifact, filename and body, per entry of output_data. -/
def generateReportText (od : List (String × SessionResult)) (date : String) :
    List (String × String) :=
  od.map (fun e => (textFileName e.2.prompt date, textFileBody e.2.prompt e.2.command_output))

/-- One row of the Excel report (lines 142 to 143 of workers.py): a dict
seeded with the Device column holding the prompt without its last character,
then updated with the whole command to output mapping of the device. -/
def excelRow (data : SessionResult) : List (String × String) :=
  data.command_output.foldl (fun row co => dictInsert row co.1 co.2)
    [("Device", data.prompt.dropRight 1)]

/-- Excel mode of generate_report (lines 140 to 143 of workers.py): rows
keyed by the 1-based position of the device in output_data. -/
def excelRows (od : List (String × SessionResult)) :
    List (ℕ × List (String × String)) :=
  od.enum.map (fun ie => (ie.1 + 1, excelRow ie.2.2))

/-- A handler environment in which every device opens and every command
succeeds with the fixed output text out. -/
def envA : String → HandlerSpec := fun _ =>
  { openOk := true, prompt := "r1#", send := fun _ => .ok "out" }

/-- A handler whose session never opens: GenericHandler construction fails. -/
def envFail : String → HandlerSpec := fun _ =>
  { openOk := false, prompt := "r1#", send := fun _ => .ok "out" }

/-- A handler whose second command c2 fails at sendCommand. -/
def envCmdFail : HandlerSpec :=
  { openOk := true, prompt := "r1#",
    send := fun c => if c = "c2" then .error "boom" else .ok "out" }

/-- A handler whose command output carries leading and trailing whitespace. -/
def envLead : HandlerSpec :=
  { openOk := true, prompt := "r1#", send := fun _ => .ok "  X " }

/-- Body of one device section as the spec words it: the concatenation, for
each command of the device in order, of the prompt, the command, a newline,
the output, a newline, then the separator line and a newline. -/
def textBodySpec (p : String) (outs : List (String × String)) : String :=
  outs.foldr (fun co acc => p ++ co.1 ++ "\n" ++ co.2 ++ "\n" ++ sep79 ++ "\n" ++ acc) ""

/-- An environment in which device b fails to open while every other device
opens and answers every command. -/
def envMixed : String → HandlerSpec := fun d =>
  if d = "b" then { openOk := false, prompt := "r1#", send := fun _ => .ok "out" }
  else { openOk := true, prompt := "r1#", send := fun _ => .ok "out" }

/-- A concrete settled batch: device A succeeded with one command, device B
failed before authentication. -/
def odW : List (String × SessionResult) :=
  [("A", { prompt := "A#", command_output := [("show version", "X")] }),
   ("B", { prompt := "", command_output := [] })]

@[simp] lemma keysOf_nil {α : Type} : keysOf ([] : List (String × α)) = [] := rfl

@[simp] lemma keysOf_cons {α : Type} (p : String × α) (t : List (String × α)) :
    keysOf (p :: t) = p.1 :: keysOf t := rfl

@[simp] lemma keysOf_append {α : Type} (m m' : List (String × α)) :
    keysOf (m ++ m') = keysOf m ++ keysOf m' :=
  List.map_append _ _ _

@[simp] lemma lookupKey_nil {α : Type} (k : String) :
    lookupKey ([] : List (String × α)) k = none := rfl

@[simp] lemma lookupKey_cons {α : Type} (p : String × α) (t : List (String × α))
    (k : String) :
    lookupKey (p :: t) k = if p.1 = k then some p.2 else lookupKey t k := rfl

lemma dictInsert_of_not_mem {α : Type} (m : List (String × α)) (k : String) (v : α)
    (h : k ∉ keysOf m) : dictInsert m k v = m ++ [(k, v)] := by
  have hany : m.any (fun p => p.1 == k) = false := by
    simp only [List.any_eq_false]
    intro p hp
    simp only [beq_iff_eq]
    intro hpk
    apply h
    simp only [keysOf, List.mem_map]
    exact ⟨p, hp, hpk⟩
  simp [dictInsert, hany]

lemma lookupKey_of_not_mem {α : Type} (m : List (String × α)) (k : String)
    (h : k ∉ keysOf m) : lookupKey m k = none := by
  induction m with
  | nil => rfl
  | cons p t ih =>
    simp only [keysOf_cons, List.mem_cons] at h
    push_neg at h
    rw [lookupKey_cons, if_neg (fun he => h.1 he.symm)]
    exact ih h.2

lemma lookupKey_append_of_none {α : Type} (m m' : List (String × α)) (k : String)
    (h : lookupKey m k = none) : lookupKey (m ++ m') k = lookupKey m' k := by
  induction m with
  | nil => simp
  | cons p t ih =>
    rw [lookupKey_cons] at h
    split at h
    · exact absurd h (by simp)
    · rw [List.cons_append, lookupKey_cons, if_neg (by assumption)]
      exact ih h

lemma lookupKey_map_update {α : Type} (m : List (String × α)) (k : String) (v : α)
    (h : k ∈ keysOf m) :
    lookupKey (m.map (fun p => if p.1 = k then (k, v) else p)) k = some v := by
  induction m with
  | nil => simp [keysOf] at h
  | cons p t ih =>
    by_cases hp : p.1 = k
    · simp [lookupKey, hp]
    · have ht : k ∈ keysOf t := by
        simp only [keysOf_cons, List.mem_cons] at h
        exact h.resolve_left (fun he => hp he.symm)
      simp only [List.map_cons, if_neg hp]
      rw [lookupKey_cons, if_neg hp]
      exact ih ht

lemma lookupKey_dictInsert_self {α : Type} (m : List (String × α)) (k : String) (v : α) :
    lookupKey (dictInsert m k v) k = some v := by
  by_cases h : k ∈ keysOf m
  · have hany : m.any (fun p => p.1 == k) = true := by
      simp only [keysOf, List.mem_map] at h
      obtain ⟨p, hp, he⟩ := h
      exact List.any_eq_true.mpr ⟨p, hp, by simp [he]⟩
    simpa [dictInsert, hany] using lookupKey_map_update m k v h
  · rw [dictInsert_of_not_mem m k v h,
      lookupKey_append_of_none _ _ _ (lookupKey_of_not_mem m k h)]
    simp [lookupKey]

lemma lookupKey_map_update_of_ne {α : Type} (m : List (String × α)) (k k' : String)
    (v : α) (hne : k' ≠ k) :
    lookupKey (m.map (fun p => if p.1 = k then (k, v) else p)) k' = lookupKey m k' := by
  induction m with
  | nil => rfl
  | cons p t ih =>
    by_cases hp : p.1 = k
    · simp only [List.map_cons, if_pos hp]
      rw [lookupKey_cons, lookupKey_cons,
        if_neg (fun he => hne he.symm), if_neg (fun he => hne (hp ▸ he).symm)]
      exact ih
    · simp only [List.map_cons, if_neg hp]
      rw [lookupKey_cons, lookupKey_cons]
      split
      · rfl
      · exact ih

lemma lookupKey_append_single_of_ne {α : Type} (m : List (String × α)) (k k' : String)
    (v : α) (hne : k' ≠ k) : lookupKey (m ++ [(k, v)]) k' = lookupKey m k' := by
  induction m with
  | nil =>
    simp only [List.nil_append, lookupKey_cons, lookupKey_nil]
    rw [if_neg (fun he => hne he.symm)]
  | cons p t ih =>
    rw [List.cons_append, lookupKey_cons, lookupKey_cons]
    split
    · rfl
    · exact ih

lemma lookupKey_dictInsert_of_ne {α : Type} (m : List (String × α)) (k k' : String)
    (v : α) (hne : k' ≠ k) : lookupKey (dictInsert m k v) k' = lookupKey m k' := by
  unfold dictInsert
  split
  · exact lookupKey_map_update_of_ne m k k' v hne
  · exact lookupKey_append_single_of_ne m k k' v hne

lemma mem_of_lookupKey {α : Type} (m : List (String × α)) (k : String) (v : α)
    (h : lookupKey m k = some v) : (k, v) ∈ m := by
  induction m with
  | nil => simp [lookupKey] at h
  | cons p t ih =>
    obtain ⟨a, b⟩ := p
    rw [lookupKey_cons] at h
    split at h
    · rename_i hak
      simp only [Option.some.injEq] at h
      simp only [List.mem_cons]
      left
      simp only at hak
      rw [← hak, ← h]
    · exact List.mem_cons.mpr (Or.inr (ih h))

lemma foldl_dictInsert_pairs {α : Type} (l : List (String × α)) :
    ∀ acc : List (String × α), (keysOf l).Nodup →
    (∀ k ∈ keysOf l, k ∉ keysOf acc) →
    l.foldl (fun m p => dictInsert m p.1 p.2) acc = acc ++ l := by
  induction l with
  | nil => intro acc _ _; simp
  | cons p t ih =>
    intro acc hnd hdisj
    obtain ⟨a, b⟩ := p
    rw [keysOf_cons] at hnd hdisj
    have hk : a ∉ keysOf acc := hdisj a (by simp)
    rw [List.foldl_cons, dictInsert_of_not_mem acc a b hk]
    have hat : a ∉ keysOf t := (List.nodup_cons.mp hnd).1
    have hdisj' : ∀ k ∈ keysOf t, k ∉ keysOf (acc ++ [(a, b)]) := by
      intro k hkt
      have hka : k ≠ a := fun he => hat (he ▸ hkt)
      have hkacc : k ∉ keysOf acc := hdisj k (List.mem_cons.mpr (Or.inr hkt))
      simp [List.mem_append, hkacc, hka]
    rw [ih (acc ++ [(a, b)]) (List.nodup_cons.mp hnd).2 hdisj']
    simp

lemma lookupKey_foldl_dictInsert {α : Type} (f : String → α) (order : List String) :
    ∀ acc : List (String × α), ∀ d : String,
    (d ∈ order ∨ lookupKey acc d = some (f d)) →
    lookupKey (order.foldl (fun m x => dictInsert m x (f x)) acc) d = some (f d) := by
  induction order with
  | nil =>
    intro acc d h
    simpa using h.resolve_left (by simp)
  | cons x t ih =>
    intro acc d h
    rw [List.foldl_cons]
    apply ih
    by_cases hdx : d = x
    · right
      rw [hdx, lookupKey_dictInsert_self]
    · cases h with
      | inl hm => exact Or.inl ((List.mem_cons.mp hm).resolve_left hdx)
      | inr hl =>
        right
        rw [lookupKey_dictInsert_of_ne _ _ _ _ hdx]
        exact hl

lemma runTasks_of_nodup (D : ℕ) (commands : List String) (env : String → HandlerSpec)
    (order : List String) (hnd : order.Nodup) :
    runTasks D commands env order =
      order.map (fun d => (d, (snapshot_task D commands (env d)).result)) := by
  unfold runTasks
  have hkeys : keysOf (order.map (fun d => (d, (snapshot_task D commands (env d)).result)))
      = order := by
    unfold keysOf
    rw [List.map_map]
    have : (Prod.fst ∘ fun d => (d, (snapshot_task D commands (env d)).result)) = id := by
      funext d; rfl
    rw [this, List.map_id]
  have h := foldl_dictInsert_pairs
    (order.map (fun d => (d, (snapshot_task D commands (env d)).result))) []
    (by rw [hkeys]; exact hnd) (by simp)
  rw [List.foldl_map] at h
  simpa using h

lemma lookupKey_runTasks (D : ℕ) (commands : List String) (env : String → HandlerSpec)
    (order : List String) (d : String) (hd : d ∈ order) :
    lookupKey (runTasks D commands env order) d =
      some (snapshot_task D commands (env d)).result := by
  unfold runTasks
  exact lookupKey_foldl_dictInsert
    (fun x => (snapshot_task D commands (env x)).result) order [] d (Or.inl hd)

lemma lookupKey_futuresErrors (D : ℕ) (commands : List String)
    (env : String → HandlerSpec) (devices : List String) (d : String)
    (hd : d ∈ devices) :
    lookupKey (futuresErrors D commands env devices) d =
      some (snapshot_task D commands (env d)).err := by
  unfold futuresErrors
  exact lookupKey_foldl_dictInsert
    (fun x => (snapshot_task D commands (env x)).err) devices [] d (Or.inl hd)

lemma mem_loggedErrors (D : ℕ) (commands : List String) (env : String → HandlerSpec)
    (devices : List String) (d : String) (e : TaskErr) (hd : d ∈ devices)
    (he : (snapshot_task D commands (env d)).err = some e) :
    (d, e) ∈ loggedErrors D commands env devices := by
  unfold loggedErrors
  apply List.mem_filterMap.mpr
  refine ⟨(d, some e), ?_, rfl⟩
  have := lookupKey_futuresErrors D commands env devices d hd
  rw [he] at this
  exact mem_of_lookupKey _ _ _ this

lemma runCommands_emitted_success (h : HandlerSpec) (cp : ℚ) (cmds : List String) :
    ∀ acc em, (∀ c ∈ cmds, ∃ out, h.send c = .ok out) →
    (runCommands h cp cmds acc em).2.1 = em ++ List.replicate cmds.length cp ∧
    (runCommands h cp cmds acc em).2.2 = none := by
  induction cmds with
  | nil => intro acc em _; simp [runCommands]
  | cons c t ih =>
    intro acc em hok
    obtain ⟨out, hout⟩ := hok c (List.mem_cons_self c t)
    simp only [runCommands, hout]
    have hrest := ih (dictInsert acc c (pyStrip out)) (em ++ [cp])
      (fun x hx => hok x (List.mem_cons_of_mem _ hx))
    refine ⟨?_, hrest.2⟩
    rw [hrest.1, List.append_assoc, List.length_cons, List.replicate_succ]
    rfl

lemma emitSum_success (D : ℕ) (commands : List String) (h : HandlerSpec)
    (hc : commands ≠ []) (hopen : h.openOk = true)
    (hok : ∀ c ∈ commands, ∃ out, h.send c = .ok out) :
    emitSum D commands h = 90 / D := by
  have hlen : commands.length ≠ 0 := fun he => hc (List.length_eq_zero.mp he)
  unfold emitSum snapshot_task
  rw [hopen]
  simp only [if_true, if_neg hlen, List.singleton_append]
  rcases hrc : runCommands h ((90 / (D : ℚ)) * (7 / 10) / commands.length) commands []
      [90 / (D : ℚ) * (1 / 10), 90 / (D : ℚ) * (2 / 10)] with ⟨acc, em, err⟩
  have hsp := runCommands_emitted_success h ((90 / (D : ℚ)) * (7 / 10) / commands.length)
    commands [] [90 / (D : ℚ) * (1 / 10), 90 / (D : ℚ) * (2 / 10)] hok
  rw [hrc] at hsp
  simp only at hsp
  rw [hsp.2]
  show em.sum = 90 / (D : ℚ)
  rw [hsp.1]
  simp only [List.sum_append, List.sum_replicate, nsmul_eq_mul, List.sum_cons, List.sum_nil]
  have hQ : (commands.length : ℚ) ≠ 0 := Nat.cast_ne_zero.mpr hlen
  have key : (commands.length : ℚ) * (90 / (D : ℚ) * (7 / 10) / (commands.length : ℚ)) =
      90 / (D : ℚ) * (7 / 10) := by
    rw [← mul_div_assoc, mul_div_cancel_left₀ _ hQ]
  rw [key]
  ring

lemma emitSum_connFail (D : ℕ) (commands : List String) (h : HandlerSpec)
    (hopen : h.openOk = false) :
    emitSum D commands h = 9 / D := by
  unfold emitSum snapshot_task
  rw [hopen]
  simp
  ring

lemma totalProgress_success (devices commands : List String)
    (env : String → HandlerSpec) (hd : devices ≠ []) (hc : commands ≠ [])
    (hok : ∀ d ∈ devices, (env d).openOk = true ∧
      ∀ c ∈ commands, ∃ out, (env d).send c = .ok out) :
    totalProgress devices commands env = 101 := by
  unfold totalProgress
  have hD : devices.length ≠ 0 := fun he => hd (List.length_eq_zero.mp he)
  have hDQ : (devices.length : ℚ) ≠ 0 := Nat.cast_ne_zero.mpr hD
  have hmap : devices.map (fun d => emitSum devices.length commands (env d)) =
      devices.map (fun _ => (90 : ℚ) / devices.length) :=
    List.map_congr_left (fun d hdm =>
      emitSum_success devices.length commands (env d) hc (hok d hdm).1 (hok d hdm).2)
  rw [hmap, List.map_const', List.sum_replicate, nsmul_eq_mul]
  field_simp
  norm_num

lemma sum_emitMap (D : ℕ) (commands : List String) (env : String → HandlerSpec)
    (hc : commands ≠ []) :
    ∀ l : List String,
    (∀ d ∈ l, (env d).openOk = false ∨
      ((env d).openOk = true ∧ ∀ c ∈ commands, ∃ out, (env d).send c = .ok out)) →
    (l.map (fun d => emitSum D commands (env d))).sum =
      ((l.filter (fun d => !(env d).openOk)).length : ℚ) * (9 / D) +
      ((l.filter (fun d => (env d).openOk)).length : ℚ) * (90 / D) := by
  intro l
  induction l with
  | nil => intro _; simp
  | cons d t ih =>
    intro hok
    have hdm := hok d (List.mem_cons_self d t)
    have ht := ih (fun x hx => hok x (List.mem_cons_of_mem _ hx))
    rw [List.map_cons, List.sum_cons, ht]
    cases hdm with
    | inl hfail =>
      rw [emitSum_connFail D commands (env d) hfail,
        List.filter_cons_of_pos (by rw [hfail]; rfl),
        List.filter_cons_of_neg (by rw [hfail]; simp),
        List.length_cons]
      push_cast
      ring
    | inr hsucc =>
      rw [emitSum_success D commands (env d) hc hsucc.1 hsucc.2,
        List.filter_cons_of_neg (by rw [hsucc.1]; simp),
        List.filter_cons_of_pos (by rw [hsucc.1]),
        List.length_cons]
      push_cast
      ring

lemma head_not_ws_of_dropWhile (p : Char → Bool) (l : List Char) (hd : Char)
    (h : (l.dropWhile p).head? = some hd) : p hd = false := by
  induction l with
  | nil => simp [List.dropWhile] at h
  | cons a t ih =>
    rw [List.dropWhile_cons] at h
    split at h
    · exact ih h
    · rename_i hpa
      simp only [List.head?_cons, Option.some.injEq] at h
      rw [← h]
      exact Bool.not_eq_true _ ▸ (by simpa using hpa)

lemma pyStripList_prefix (l : List Char) :
    l.dropWhile isPyWhitespace =
      pyStripList l ++
        ((l.dropWhile isPyWhitespace).reverse.takeWhile isPyWhitespace).reverse := by
  have h3 := List.takeWhile_append_dropWhile isPyWhitespace
    (l.dropWhile isPyWhitespace).reverse
  calc l.dropWhile isPyWhitespace
      = (l.dropWhile isPyWhitespace).reverse.reverse := (List.reverse_reverse _).symm
    _ = ((l.dropWhile isPyWhitespace).reverse.takeWhile isPyWhitespace ++
          (l.dropWhile isPyWhitespace).reverse.dropWhile isPyWhitespace).reverse := by
        rw [h3]
    _ = pyStripList l ++
          ((l.dropWhile isPyWhitespace).reverse.takeWhile isPyWhitespace).reverse := by
        rw [List.reverse_append]
        rfl

lemma pyStripList_decomp (l : List Char) :
    l = l.takeWhile isPyWhitespace ++ pyStripList l ++
        ((l.dropWhile isPyWhitespace).reverse.takeWhile isPyWhitespace).reverse ∧
    (∀ a ∈ l.takeWhile isPyWhitespace, isPyWhitespace a = true) ∧
    (∀ a ∈ ((l.dropWhile isPyWhitespace).reverse.takeWhile isPyWhitespace).reverse,
      isPyWhitespace a = true) := by
  refine ⟨?_, fun a ha => List.mem_takeWhile_imp ha, fun a ha =>
    List.mem_takeWhile_imp (List.mem_reverse.mp ha)⟩
  conv_lhs => rw [← List.takeWhile_append_dropWhile isPyWhitespace l]
  rw [List.append_assoc, ← pyStripList_prefix l]

lemma pyStripList_head (l : List Char) (hd : Char)
    (h : (pyStripList l).head? = some hd) : isPyWhitespace hd = false := by
  rcases hs : pyStripList l with _ | ⟨c, t⟩
  · rw [hs] at h; simp at h
  · rw [hs] at h
    simp only [List.head?_cons, Option.some.injEq] at h
    have h5 := pyStripList_prefix l
    rw [hs, List.cons_append] at h5
    have hhead : (l.dropWhile isPyWhitespace).head? = some c := by
      rw [h5]
      rfl
    rw [← h]
    exact head_not_ws_of_dropWhile isPyWhitespace l c hhead

lemma pyStripList_last (l : List Char) (lst : Char)
    (h : (pyStripList l).getLast? = some lst) : isPyWhitespace lst = false := by
  unfold pyStripList at h
  rw [List.getLast?_reverse] at h
  exact head_not_ws_of_dropWhile isPyWhitespace
    (l.dropWhile isPyWhitespace).reverse lst h

lemma mem_dictInsert {α : Type} (m : List (String × α)) (k : String) (v : α)
    (p : String × α) (hp : p ∈ dictInsert m k v) : p ∈ m ∨ p = (k, v) := by
  unfold dictInsert at hp
  split at hp
  · rw [List.mem_map] at hp
    obtain ⟨q, hq, he⟩ := hp
    by_cases hqk : q.1 = k
    · rw [if_pos hqk] at he
      exact Or.inr he.symm
    · rw [if_neg hqk] at he
      exact Or.inl (he ▸ hq)
  · rw [List.mem_append] at hp
    cases hp with
    | inl h => exact Or.inl h
    | inr h => exact Or.inr (by simpa using h)

lemma runCommands_stores (h : HandlerSpec) (cp : ℚ) (cmds : List String) :
    ∀ acc em, (∀ p ∈ acc, ∃ raw, h.send p.1 = .ok raw ∧ p.2 = pyStrip raw) →
    ∀ p ∈ (runCommands h cp cmds acc em).1,
      ∃ raw, h.send p.1 = .ok raw ∧ p.2 = pyStrip raw := by
  induction cmds with
  | nil => intro acc em hacc; simpa [runCommands] using hacc
  | cons c t ih =>
    intro acc em hacc p
    simp only [runCommands]
    rcases hsend : h.send c with e | raw
    · intro hp
      exact hacc p hp
    · intro hp
      refine ih (dictInsert acc c (pyStrip raw)) (em ++ [cp]) ?_ p hp
      intro q hq
      rcases mem_dictInsert _ _ _ _ hq with hqm | hqe
      · exact hacc q hqm
      · rw [hqe]
        exact ⟨raw, hsend, rfl⟩

lemma snapshot_stores (D : ℕ) (commands : List String) (h : HandlerSpec) :
    ∀ p ∈ (snapshot_task D commands h).result.command_output,
      ∃ raw, h.send p.1 = .ok raw ∧ p.2 = pyStrip raw := by
  intro p hp
  unfold snapshot_task at hp
  rcases hopen : h.openOk with _ | _
  · rw [hopen] at hp
    simp at hp
  · rw [hopen] at hp
    simp only [if_true] at hp
    by_cases hlen : commands.length = 0
    · rw [if_pos hlen] at hp
      simp at hp
    · rw [if_neg hlen] at hp
      rcases hrc : runCommands h ((90 / (D : ℚ)) * (7 / 10) / commands.length) commands []
          ([90 / (D : ℚ) * (1 / 10)] ++ [90 / (D : ℚ) * (2 / 10)]) with ⟨acc, em, err⟩
      have hst := runCommands_stores h ((90 / (D : ℚ)) * (7 / 10) / commands.length)
        commands [] ([90 / (D : ℚ) * (1 / 10)] ++ [90 / (D : ℚ) * (2 / 10)])
        (by intro q hq; simp at hq)
      rw [hrc] at hp hst
      rcases err with _ | e
      · simp only at hp
        exact hst p hp
      · simp only at hp
        exact hst p hp

lemma foldl_textBody (p : String) (outs : List (String × String)) :
    ∀ init : String,
    outs.foldl (fun acc co => acc ++ (p ++ co.1 ++ "\n" ++ co.2 ++ "\n" ++ sep79 ++ "\n")) init =
      init ++ outs.foldr (fun co acc => p ++ co.1 ++ "\n" ++ co.2 ++ "\n" ++ sep79 ++ "\n" ++ acc) "" := by
  induction outs with
  | nil =>
    intro init
    rw [List.foldl_nil, List.foldr_nil, String.append_empty]
  | cons co t ih =>
    intro init
    rw [List.foldl_cons, List.foldr_cons, ih, String.append_assoc]

lemma textFileBody_eq_spec (p : String) (outs : List (String × String)) :
    textFileBody p outs = textBodySpec p outs := by
  unfold textFileBody textBodySpec
  rw [foldl_textBody]
  have : ∀ s : String, "" ++ s = s := fun s => by
    have := String.append_empty s
    rcases s with ⟨l⟩
    rfl
  rw [this]

lemma keysOf_map_pair {α : Type} (f : String → α) (l : List String) :
    keysOf (l.map (fun d => (d, f d))) = l := by
  unfold keysOf
  rw [List.map_map]
  have h : (Prod.fst ∘ fun d => (d, f d)) = id := by funext d; rfl
  rw [h, List.map_id]

lemma excelRow_eq (data : SessionResult)
    (hnd : (keysOf data.command_output).Nodup)
    (hdev : "Device" ∉ keysOf data.command_output) :
    excelRow data = ("Device", data.prompt.dropRight 1) :: data.command_output := by
  unfold excelRow
  have h := foldl_dictInsert_pairs data.command_output
    [("Device", data.prompt.dropRight 1)] hnd (by
      intro k hk hmem
      have hkd : k = "Device" := by simpa using hmem
      exact hdev (hkd ▸ hk))
  rw [h]
  rfl

lemma excelRows_keys (od : List (String × SessionResult)) :
    (excelRows od).map Prod.fst = List.range' 1 od.length := by
  unfold excelRows
  rw [List.map_map]
  have h1 : (Prod.fst ∘ fun ie : ℕ × (String × SessionResult) => (ie.1 + 1, excelRow ie.2.2))
      = ((fun n => n + 1) ∘ Prod.fst) := by
    funext ie
    rfl
  rw [h1, ← List.map_map, List.enum_map_fst, List.range'_eq_map_range]
  exact List.map_congr_left (fun a _ => Nat.add_comm a 1)

lemma excelRows_rows (od : List (String × SessionResult)) :
    (excelRows od).map Prod.snd = od.map (fun e => excelRow e.2) := by
  unfold excelRows
  rw [List.map_map]
  have h1 : (Prod.snd ∘ fun ie : ℕ × (String × SessionResult) => (ie.1 + 1, excelRow ie.2.2))
      = ((fun e : String × SessionResult => excelRow e.2) ∘ Prod.snd) := by
    funext ie
    rfl
  rw [h1, ← List.map_map, List.enum_map_snd]

/-- Claim C1, counterexample: the output_data dict collapses repeated device
identifiers to a single entry (devices [a, a] give one entry, not two), and
when the concurrently running tasks perform their initial writes in an order
other than the input order (a valid execution: [b, a] is a permutation of the
submitted list), the iteration order of output_data is that write order, not
the input order. -/
theorem C1_counterexample :
    (runTasks 2 ["c"] envA ["a", "a"]).length = 1 ∧ (1 : ℕ) ≠ 2 ∧
    List.Perm ["b", "a"] ["a", "b"] ∧
    keysOf (runTasks 2 ["c"] envA ["b", "a"]) = ["b", "a"] ∧
    (["b", "a"] : List String) ≠ ["a", "b"] := by
  refine ⟨by decide, by decide, by decide, by decide, by decide⟩

/-- Claim C1, amended: for every non-empty device list with pairwise distinct
identifiers and every order in which the concurrent tasks perform their
initial writes (any permutation of the input list), output_data has exactly
one entry per input device, and its iteration order equals that write order;
it equals the input order exactly when the tasks write in submission
order. -/
theorem C1_batch_entries (devices commands order : List String)
    (env : String → HandlerSpec) (_hd : devices ≠ []) (hnd : devices.Nodup)
    (hperm : order.Perm devices) :
    (runTasks devices.length commands env order).length = devices.length ∧
    keysOf (runTasks devices.length commands env order) = order ∧
    (order = devices → keysOf (runTasks devices.length commands env order) = devices) := by
  have hndo : order.Nodup := (hperm.nodup_iff).mpr hnd
  rw [runTasks_of_nodup devices.length commands env order hndo]
  refine ⟨?_, ?_, ?_⟩
  · rw [List.length_map]
    exact hperm.length_eq
  · exact keysOf_map_pair _ order
  · intro he
    rw [keysOf_map_pair _ order, he]

/-- Claim C1, witness for the amended statement at a concrete input. -/
theorem C1_batch_entries_witness :
    (["a", "b"] : List String) ≠ [] ∧ (["a", "b"] : List String).Nodup ∧
    (runTasks 2 ["c"] envA ["a", "b"]).length = 2 ∧
    keysOf (runTasks 2 ["c"] envA ["a", "b"]) = ["a", "b"] := by
  have h := C1_batch_entries ["a", "b"] ["c"] ["a", "b"] envA (by decide) (by decide)
    (List.Perm.refl _)
  exact ⟨by decide, by decide, h.1, h.2.1⟩

/-- Claim C2: evaluation of the code at the failing input.  For a device
whose second command fails, commandOutputs holds exactly the one entry
recorded before the failure (the N minus 1 part of the claim holds), but
handler.close is never invoked, because line 119 of workers.py is only
reached when the whole command loop finishes: the claim requires exactly one
close in this case, the code performs zero.  On full success close runs
exactly once. -/
theorem C2_close_skipped_on_command_failure :
    (snapshot_task 1 ["c1", "c2"] envCmdFail).closeCount = 0 ∧
    (snapshot_task 1 ["c1", "c2"] envCmdFail).err = some (TaskErr.cmdErr "c2") ∧
    (snapshot_task 1 ["c1", "c2"] envCmdFail).result.command_output = [("c1", "out")] ∧
    (snapshot_task 1 ["c1"] envCmdFail).closeCount = 1 := by
  refine ⟨by decide, by decide, by decide, by decide⟩

/-- Claim C3, counterexample: for one device and one command, all succeeding,
the emitted progress sums to 101, not 100; the gap of 1 is far outside the
stated tolerance.  The increments are 9 at pool startup, 9 on connect start,
18 after authentication, 63 for the command and 2 after the report. -/
theorem C3_counterexample :
    totalProgress ["a"] ["c"] envA = 101 ∧
    ¬ |totalProgress ["a"] ["c"] envA - 100| ≤ 1 / 1000000 := by
  have h : totalProgress ["a"] ["c"] envA = 101 := by
    norm_num [totalProgress, emitSum, snapshot_task, runCommands, envA, dictInsert]
  refine ⟨h, ?_⟩
  rw [h]
  norm_num

/-- Claim C3, amended: over a fully successful batch of D devices and C
commands (D, C at least 1) the progress increments sum to exactly 101: the 9
startup units, 90 units across the devices and the final 2 units. -/
theorem C3_total_is_101 (devices commands : List String)
    (env : String → HandlerSpec) (hd : devices ≠ []) (hc : commands ≠ [])
    (hok : ∀ d ∈ devices, (env d).openOk = true ∧
      ∀ c ∈ commands, ∃ out, (env d).send c = .ok out) :
    totalProgress devices commands env = 101 ∧
    |totalProgress devices commands env - 101| ≤ 1 / 1000000 := by
  have h := totalProgress_success devices commands env hd hc hok
  refine ⟨h, ?_⟩
  rw [h]
  norm_num

/-- Claim C3, witness for the amended statement at a concrete input. -/
theorem C3_total_is_101_witness :
    (["a"] : List String) ≠ [] ∧ (["c"] : List String) ≠ [] ∧
    totalProgress ["a"] ["c"] envA = 101 :=
  ⟨by decide, by decide,
    (C3_total_is_101 ["a"] ["c"] envA (by decide) (by decide)
      (fun _ _ => ⟨rfl, fun _ _ => ⟨"out", rfl⟩⟩)).1⟩

/-- Claim C4: for every batch and every handler behaviour, every device of
the input list has an entry in the settled output_data, every task exception
is caught and recorded per device in the coordinator log (never re-raised:
the batch functions are total), and report generation still runs over the
whole settled batch, producing one text artifact per entry. -/
theorem C4_containment (devices commands order : List String)
    (env : String → HandlerSpec) (date : String) (hperm : order.Perm devices) :
    (∀ d ∈ devices, ∃ r, (d, r) ∈ (runBatch devices commands env order).output_data) ∧
    (∀ d ∈ devices, ∀ e, (snapshot_task devices.length commands (env d)).err = some e →
      (d, e) ∈ (runBatch devices commands env order).logged) ∧
    (generateReportText (runBatch devices commands env order).output_data date).length =
      (runBatch devices commands env order).output_data.length := by
  refine ⟨?_, ?_, ?_⟩
  · intro d hdm
    exact ⟨_, mem_of_lookupKey _ _ _ (lookupKey_runTasks devices.length commands env order d
      (hperm.mem_iff.mpr hdm))⟩
  · intro d hdm e he
    exact mem_loggedErrors devices.length commands env devices d e hdm he
  · unfold generateReportText
    rw [List.length_map]

/-- Claim C4, witness: a batch whose only device fails at open still yields
an output_data entry and a logged connection error. -/
theorem C4_containment_witness :
    List.Perm ["a"] ["a"] ∧
    (∃ r, ("a", r) ∈ (runBatch ["a"] ["c"] envFail ["a"]).output_data) ∧
    ("a", TaskErr.connErr) ∈ (runBatch ["a"] ["c"] envFail ["a"]).logged := by
  have h := C4_containment ["a"] ["c"] ["a"] envFail "2024-01-01" (List.Perm.refl _)
  exact ⟨List.Perm.refl _, h.1 "a" (by decide), h.2.1 "a" (by decide) TaskErr.connErr rfl⟩

/-- Claim C5: a device whose session open fails keeps its pre-created
output_data entry with an empty prompt and an empty commandOutputs mapping,
whatever the write order of the concurrent tasks. -/
theorem C5_open_failure_entry (devices commands order : List String)
    (env : String → HandlerSpec) (d : String) (hperm : order.Perm devices)
    (hdm : d ∈ devices) (hfail : (env d).openOk = false) :
    lookupKey (runTasks devices.length commands env order) d =
      some { prompt := "", command_output := [] } := by
  rw [lookupKey_runTasks devices.length commands env order d (hperm.mem_iff.mpr hdm)]
  unfold snapshot_task
  rw [hfail]
  simp

/-- Claim C5, witness at a concrete input. -/
theorem C5_open_failure_entry_witness :
    ("a" ∈ (["a"] : List String)) ∧ (envFail "a").openOk = false ∧
    lookupKey (runTasks 1 ["c"] envFail ["a"]) "a" =
      some { prompt := "", command_output := [] } :=
  ⟨by decide, rfl,
    C5_open_failure_entry ["a"] ["c"] ["a"] envFail "a" (List.Perm.refl _) (by decide) rfl⟩

/-- Claim C6: in Text mode each device yields one artifact whose body is, for
each command of the device in order, prompt, command, newline, output,
newline, then the separator line and a newline, and whose filename is the
prompt without its trailing character, an underscore, the current date and
the txt extension; the separator line is exactly 79 identical dash
characters. -/
theorem C6_text_report (od : List (String × SessionResult)) (date : String) :
    generateReportText od date = od.map (fun e =>
      (e.2.prompt.dropRight 1 ++ "_" ++ date ++ ".txt",
        textBodySpec e.2.prompt e.2.command_output)) ∧
    sep79.length = 79 ∧ ∀ ch ∈ sep79.toList, ch = '-' := by
  refine ⟨?_, by decide, by decide⟩
  unfold generateReportText
  apply List.map_congr_left
  intro e _
  rw [textFileBody_eq_spec]
  rfl

/-- Claim C7: in Tabular mode the row keys are the 1-based positions in
batch order; for a device whose commandOutputs has distinct keys none of
which is the Device label, the row is the Device column holding the trimmed
prompt followed by exactly the completed commands with their outputs, so a
command the device never reached is absent; a device that failed at connect
gets the row with an empty Device value and no command columns, and row
assembly is total. -/
theorem C7_excel_report (od : List (String × SessionResult)) :
    (excelRows od).map Prod.fst = List.range' 1 od.length ∧
    (excelRows od).map Prod.snd = od.map (fun e => excelRow e.2) ∧
    (∀ e ∈ od, (keysOf e.2.command_output).Nodup →
      "Device" ∉ keysOf e.2.command_output →
      excelRow e.2 = ("Device", e.2.prompt.dropRight 1) :: e.2.command_output ∧
      lookupKey (excelRow e.2) "Device" = some (e.2.prompt.dropRight 1) ∧
      ∀ c, c ≠ "Device" → lookupKey (excelRow e.2) c = lookupKey e.2.command_output c) ∧
    (∀ e ∈ od, e.2 = { prompt := "", command_output := [] } →
      excelRow e.2 = [("Device", "")]) := by
  refine ⟨excelRows_keys od, excelRows_rows od, ?_, ?_⟩
  · intro e _ hnd hdev
    have hrow := excelRow_eq e.2 hnd hdev
    refine ⟨hrow, ?_, ?_⟩
    · rw [hrow, lookupKey_cons, if_pos rfl]
    · intro c hc
      rw [hrow, lookupKey_cons, if_neg (fun he => hc he.symm)]
  · intro e _ he
    rw [he]
    decide

/-- Claim C7, witness at the spec example: device A succeeded with one
command, device B failed at connect. -/
theorem C7_excel_report_witness :
    (excelRows odW).map Prod.fst = [1, 2] ∧
    excelRow { prompt := "A#", command_output := [("show version", "X")] } =
      [("Device", "A"), ("show version", "X")] ∧
    excelRow { prompt := "", command_output := [] } = [("Device", "")] := by
  have h := C7_excel_report odW
  refine ⟨?_, ?_, ?_⟩
  · rw [h.1]
    decide
  · exact (h.2.2.1 ("A", { prompt := "A#", command_output := [("show version", "X")] })
      (by decide) (by decide) (by decide)).1
  · exact h.2.2.2 ("B", { prompt := "", command_output := [] }) (by decide) rfl

/-- Claim C8, counterexample: a command whose raw captured output is
double-space X space is stored as X: the code applies the Python strip
method, which removes the leading whitespace too, while the claim requires
the stored value to keep it (the claim expects double-space X). -/
theorem C8_counterexample :
    lookupKey (snapshot_task 1 ["c"] envLead).result.command_output "c" = some "X" ∧
    ("X" : String) ≠ "  X" := by
  refine ⟨by decide, by decide⟩

/-- Claim C8, amended: every value stored in commandOutputs is the raw
captured output with both leading and trailing whitespace removed: the raw
text splits as an all-whitespace prefix, the stored value, and an
all-whitespace suffix, and the stored value neither starts nor ends with a
whitespace character. -/
theorem C8_stored_is_stripped (D : ℕ) (commands : List String) (h : HandlerSpec)
    (c v : String) (hmem : (c, v) ∈ (snapshot_task D commands h).result.command_output) :
    ∃ raw, h.send c = .ok raw ∧ v = pyStrip raw ∧
      (∃ pre post, raw.toList = pre ++ v.toList ++ post ∧
        (∀ a ∈ pre, isPyWhitespace a = true) ∧
        (∀ a ∈ post, isPyWhitespace a = true)) ∧
      (∀ hd, v.toList.head? = some hd → isPyWhitespace hd = false) ∧
      (∀ lst, v.toList.getLast? = some lst → isPyWhitespace lst = false) := by
  obtain ⟨raw, hsend, hv⟩ := snapshot_stores D commands h (c, v) hmem
  have hv' : v = pyStrip raw := hv
  have hvl : v.toList = pyStripList raw.toList := by
    rw [hv']
    rfl
  refine ⟨raw, hsend, hv', ?_, ?_, ?_⟩
  · have hdec := pyStripList_decomp raw.toList
    refine ⟨raw.toList.takeWhile isPyWhitespace,
      ((raw.toList.dropWhile isPyWhitespace).reverse.takeWhile isPyWhitespace).reverse,
      ?_, hdec.2.1, hdec.2.2⟩
    rw [hvl]
    exact hdec.1
  · intro hd0 hh
    rw [hvl] at hh
    exact pyStripList_head raw.toList hd0 hh
  · intro lst hh
    rw [hvl] at hh
    exact pyStripList_last raw.toList lst hh

/-- Claim C8, witness for the amended statement at a concrete input. -/
theorem C8_stored_is_stripped_witness :
    ("c", "X") ∈ (snapshot_task 1 ["c"] envLead).result.command_output ∧
    ∃ raw, envLead.send "c" = .ok raw ∧ "X" = pyStrip raw := by
  refine ⟨by decide, ?_⟩
  obtain ⟨raw, h1, h2, _⟩ := C8_stored_is_stripped 1 ["c"] envLead "c" "X" (by decide)
  exact ⟨raw, h1, h2⟩

/-- Claim C9, counterexample: with one device and one command, when the
session open fails the run emits only 9 at startup, 9 at connect start and
the final 2: the total is 20, nowhere near 100; the unspent share of the
failed device is lost, so total progress does not reach 100. -/
theorem C9_counterexample :
    totalProgress ["a"] ["c"] envFail = 20 ∧
    ¬ |totalProgress ["a"] ["c"] envFail - 100| ≤ 1 / 1000000 := by
  have h : totalProgress ["a"] ["c"] envFail = 20 := by
    norm_num [totalProgress, emitSum, snapshot_task, envFail]
  refine ⟨h, ?_⟩
  rw [h]
  norm_num

/-- Claim C9, amended: an open-failed device spends only 10 percent of its
per-device share; with F of the D devices failing at open and the rest fully
succeeding over at least one command, the run total is 101 minus F times
81 over D, strictly below the full-success total whenever F is positive. -/
theorem C9_total_with_open_failures (devices commands : List String)
    (env : String → HandlerSpec) (hd : devices ≠ []) (hc : commands ≠ [])
    (hok : ∀ d ∈ devices, (env d).openOk = false ∨
      ((env d).openOk = true ∧ ∀ c ∈ commands, ∃ out, (env d).send c = .ok out)) :
    totalProgress devices commands env =
      101 - ((devices.filter (fun d => !(env d).openOk)).length : ℚ) *
        (81 / (devices.length : ℚ)) := by
  unfold totalProgress
  rw [sum_emitMap devices.length commands env hc devices hok]
  have hD : devices.length ≠ 0 := fun he => hd (List.length_eq_zero.mp he)
  have hDQ : (devices.length : ℚ) ≠ 0 := Nat.cast_ne_zero.mpr hD
  have hlen := List.length_eq_length_filter_add (l := devices)
    (fun d => (env d).openOk)
  have hlen' : devices.length =
      (devices.filter (fun d => (env d).openOk)).length +
      (devices.filter (fun d => !(env d).openOk)).length := by
    simpa using hlen
  have hcast : ((devices.filter (fun d => (env d).openOk)).length : ℚ) =
      (devices.length : ℚ) -
      ((devices.filter (fun d => !(env d).openOk)).length : ℚ) := by
    rw [hlen']
    push_cast
    ring
  rw [hcast]
  field_simp
  ring

/-- Claim C9, witness for the amended statement: two devices, one failing at
open, one command. -/
theorem C9_total_with_open_failures_witness :
    (["a", "b"] : List String) ≠ [] ∧ (["c"] : List String) ≠ [] ∧
    totalProgress ["a", "b"] ["c"] envMixed =
      101 - (((["a", "b"] : List String).filter
        (fun d => !(envMixed d).openOk)).length : ℚ) *
        (81 / (((["a", "b"] : List String).length : ℕ) : ℚ)) := by
  refine ⟨by decide, by decide, ?_⟩
  exact C9_total_with_open_failures ["a", "b"] ["c"] envMixed (by decide) (by decide)
    (by
      intro d hdm
      have hd2 : d = "a" ∨ d = "b" := by simpa using hdm
      rcases hd2 with h | h
      · right
        rw [h]
        exact ⟨rfl, fun c _ => ⟨"out", rfl⟩⟩
      · left
        rw [h]
        rfl)

/-- Claim C10: with a non-empty device list and an empty command list, a
device whose session opens successfully raises the division-by-zero error
while computing the per-command share, after its prompt is recorded and with
no command sent and no close performed; the error is contained: it is logged
per device by the coordinator and the batch still reaches report generation,
one artifact per settled entry. -/
theorem C10_empty_commands (devices order : List String)
    (env : String → HandlerSpec) (date : String) (d : String)
    (hdm : d ∈ devices) (hopen : (env d).openOk = true) :
    (snapshot_task devices.length [] (env d)).err = some TaskErr.divZero ∧
    (snapshot_task devices.length [] (env d)).result.prompt = (env d).prompt ∧
    (snapshot_task devices.length [] (env d)).result.command_output = [] ∧
    (snapshot_task devices.length [] (env d)).closeCount = 0 ∧
    (d, TaskErr.divZero) ∈ (runBatch devices [] env order).logged ∧
    (generateReportText (runBatch devices [] env order).output_data date).length =
      (runBatch devices [] env order).output_data.length := by
  have hsnap : snapshot_task devices.length [] (env d) =
      { result := { prompt := (env d).prompt, command_output := [] },
        emitted := [90 / (devices.length : ℚ) * (1 / 10),
          90 / (devices.length : ℚ) * (2 / 10)],
        closeCount := 0, err := some TaskErr.divZero } := by
    unfold snapshot_task
    rw [hopen]
    simp
  refine ⟨by rw [hsnap], by rw [hsnap], by rw [hsnap], by rw [hsnap], ?_, ?_⟩
  · exact mem_loggedErrors devices.length [] env devices d TaskErr.divZero hdm
      (by rw [hsnap])
  · unfold generateReportText
    rw [List.length_map]

/-- Claim C10, witness at a concrete input. -/
theorem C10_empty_commands_witness :
    ("a" ∈ (["a"] : List String)) ∧ (envA "a").openOk = true ∧
    (snapshot_task 1 [] (envA "a")).err = some TaskErr.divZero ∧
    (snapshot_task 1 [] (envA "a")).closeCount = 0 ∧
    ("a", TaskErr.divZero) ∈ (runBatch ["a"] [] envA ["a"]).logged := by
  have h := C10_empty_commands ["a"] ["a"] envA "2024-01-01" "a" (by decide) rfl
  exact ⟨by decide, rfl, h.1, h.2.2.2.1, h.2.2.2.2.1⟩
